import Mathlib

/-!
Shallow embedding of `darwinia-network/runtime-overrides` (`src/main.rs`).

The program is a small CLI that, for one of four chain variants, clones the
variant's source repository, builds a tracing runtime, relocates the compiled
wasm artifact, and writes a JSON digest for it.

Pure string derivations (the `Runtime` enum's methods and the path formatting
in `main`) are embedded directly as Lean functions.  The effectful `main` is
embedded as an interpreter over a `World` oracle that answers each external
query the program makes (path existence, process spawning, directory creation,
renames, file creation, serialization); the interpreter records an event trace
of every side effect attempted and returns the `anyhow::Result` outcome as an
`Except String Unit`.
-/

namespace RuntimeOverrides

/-- Result of attempting to spawn a subprocess, mirroring
`std::process::Command::output`: either the process was launched (and exited
with some status code, success or not), or it could not be launched at all. -/
inductive SpawnResult where
  | spawned (exitCode : Nat)
  | failedToLaunch
deriving DecidableEq

/-- Oracle for the external world: answers every query `main` makes of the
filesystem and the OS.  Each field corresponds to one kind of external call in
`src/main.rs`. -/
structure World where
  /-- answer to `Path::new(p).exists()` -/
  pathExists : String → Bool
  /-- outcome of `Command::new(program).args(args). ... .output()` -/
  spawn : String → List String → SpawnResult
  /-- whether `env::set_current_dir(p)` succeeds -/
  setDirOk : String → Bool
  /-- whether `fs::create_dir_all(p)` succeeds -/
  createDirOk : String → Bool
  /-- whether `fs::rename(src, dst)` succeeds, given the source exists -/
  renameOk : String → String → Bool
  /-- whether `File::create(p)` succeeds -/
  createFileOk : String → Bool
  /-- whether `serde_json::to_writer(..)` succeeds -/
  serializeOk : Bool

/-- Side effects attempted by the program, in order. -/
inductive Event where
  | runProc (program : String) (args : List String)
  | setCurrentDir (path : String)
  | createDirAll (path : String)
  | rename (src dst : String)
  | createFile (path : String)
  | writeJson (path : String)
  | println (s : String)
deriving DecidableEq

/-- ASCII lowercasing of a string, character by character, mirroring Rust's
`str::to_ascii_lowercase` (`Char.toLower` only affects `A`-`Z`). -/
def asciiLower (s : String) : String :=
  String.mk (s.data.map Char.toLower)

/-- The four supported chain variants (`enum Runtime` in `main.rs`). -/
inductive Runtime where
  | Darwinia
  | Crab
  | Pangoro
  | Pangolin
deriving DecidableEq

namespace Runtime

/-- Rust: `format!("{:?}", self)` — the canonical (Debug) name. -/
def name : Runtime → String
  | Darwinia => "Darwinia"
  | Crab => "Crab"
  | Pangoro => "Pangoro"
  | Pangolin => "Pangolin"

/-- Rust: `self.name().to_ascii_lowercase()`. -/
def lowercase_name (r : Runtime) : String :=
  asciiLower r.name

/-- Rust: `match_runtimes!(self, "darwinia", "darwinia-common")`. -/
def repository : Runtime → String
  | Darwinia | Crab => "darwinia"
  | Pangoro | Pangolin => "darwinia-common"

/-- Rust: `format!("https://github.com/darwinia-network/{}", self.repository())`. -/
def github (r : Runtime) : String :=
  "https://github.com/darwinia-network/" ++ r.repository

/-- Rust: `format!("{}/{}", match_runtimes!(self, "runtime", "node/runtime"), self.lowercase_name())`. -/
def path (r : Runtime) : String :=
  (match r with
   | Darwinia | Crab => "runtime"
   | Pangoro | Pangolin => "node/runtime") ++ "/" ++ r.lowercase_name

end Runtime

/-- The parsed command line (`struct Cli`): a required runtime variant and a
target ref string. -/
structure Cli where
  runtime : Runtime
  target : String

/-- Case-insensitive matching of a variant argument against the four known
names, as clap's `ArgEnum` with `ignore_case = true` does. -/
def parseRuntime (s : String) : Option Runtime :=
  if asciiLower s = "darwinia" then some Runtime.Darwinia
  else if asciiLower s = "crab" then some Runtime.Crab
  else if asciiLower s = "pangoro" then some Runtime.Pangoro
  else if asciiLower s = "pangolin" then some Runtime.Pangolin
  else none

/-- Parsing of the command line (`Cli::parse`): the `--runtime` flag is
required and restricted to the four variant names (case-insensitively); the
`--target` flag is optional with `default_value = "main"`. -/
def parseCli (runtimeArg : Option String) (targetArg : Option String) :
    Except String Cli :=
  match runtimeArg with
  | none => Except.error "usage: the required argument --runtime was not provided"
  | some s =>
    match parseRuntime s with
    | none => Except.error "usage: invalid value for --runtime"
    | some r => Except.ok ⟨r, targetArg.getD "main"⟩

/-- Rust helper `run`: spawns the subprocess and propagates only a spawn
failure; the subprocess's exit status is ignored (`output()?; Ok(())`). -/
def run (w : World) (program : String) (args : List String) :
    Except String Unit :=
  match w.spawn program args with
  | SpawnResult.spawned _ => Except.ok ()
  | SpawnResult.failedToLaunch => Except.error "failed to spawn"

/-- Trace and outcome of a (partial) execution of `main`. -/
structure RunResult where
  events : List Event
  result : Except String Unit

/-- Sequencing: perform a step that attempted the side effects `evs` with
outcome `r`; on error stop (the `?` operator), otherwise continue with `k`. -/
def step (evs : List Event) (r : Except String Unit) (k : RunResult) :
    RunResult :=
  match r with
  | Except.error e => ⟨evs, Except.error e⟩
  | Except.ok _ => ⟨evs ++ k.events, k.result⟩

/-- One subprocess invocation via the `run` helper, recorded in the trace. -/
def runStep (w : World) (program : String) (args : List String)
    (k : RunResult) : RunResult :=
  step [Event.runProc program args] (run w program args) k

/-- Rust helper `create_dir_unchecked`: create the directory tree only if the
path does not already exist.  Returns the events attempted and the outcome. -/
def create_dir_unchecked (w : World) (path : String) :
    List Event × Except String Unit :=
  if !(w.pathExists path) then
    ([Event.createDirAll path],
     if w.createDirOk path then Except.ok () else Except.error "create_dir_all failed")
  else ([], Except.ok ())

/-- Rust: `format!("build/{}", runtime.repository())`. -/
def runtime_source_code_path (r : Runtime) : String :=
  "build/" ++ r.repository

/-- Rust: `format!("{}/Cargo.toml", runtime.path())`. -/
def runtime_manifest (r : Runtime) : String :=
  r.path ++ "/Cargo.toml"

/-- Rust: `format!("{}-{}-tracing-runtime", runtime_lowercase_name, target)`. -/
def artifactName (r : Runtime) (target : String) : String :=
  r.lowercase_name ++ "-" ++ target ++ "-tracing-runtime"

/-- Rust: `format!("overridden-runtimes/{}/wasms", runtime_lowercase_name)`. -/
def wasms_dir (r : Runtime) : String :=
  "overridden-runtimes/" ++ r.lowercase_name ++ "/wasms"

/-- Rust: `format!("overridden-runtimes/{}/digests", runtime_lowercase_name)`. -/
def digests_dir (r : Runtime) : String :=
  "overridden-runtimes/" ++ r.lowercase_name ++ "/digests"

/-- Rust: `format!("{}/{}.compact.compressed.wasm", wasms_dir, name_prefix)`. -/
def wasm_path (r : Runtime) (target : String) : String :=
  wasms_dir r ++ "/" ++ artifactName r target ++ ".compact.compressed.wasm"

/-- Rust: `format!("{}/{}.json", digests_dir, name_prefix)`. -/
def digest_path (r : Runtime) (target : String) : String :=
  digests_dir r ++ "/" ++ artifactName r target ++ ".json"

/-- Rust: the toolchain's known output location,
`format!("build/{}/target/release/wbuild/{}-runtime/{}_runtime.compact.compressed.wasm", ..)`. -/
def build_output_path (r : Runtime) : String :=
  "build/" ++ r.repository ++ "/target/release/wbuild/" ++ r.lowercase_name
    ++ "-runtime/" ++ r.lowercase_name ++ "_runtime.compact.compressed.wasm"

/-- Everything `main` does after the conditional clone: change into the source
tree, fetch, checkout, clean, build, change back, ensure the output
directories, move the artifact, and emit the digest, in source order. -/
def afterClone (w : World) (cli : Cli) : RunResult :=
  let r := cli.runtime
  let target := cli.target
  step [Event.setCurrentDir (runtime_source_code_path r)]
    (if w.setDirOk (runtime_source_code_path r) then Except.ok ()
     else Except.error "set_current_dir failed") <|
  runStep w "git" ["fetch", "--all"] <|
  runStep w "git" ["checkout", target] <|
  runStep w "cargo"
    ["clean", "--release", "--manifest-path", runtime_manifest r, "-p",
     r.lowercase_name ++ "-runtime"] <|
  runStep w "cargo"
    ["b", "--release", "--manifest-path", runtime_manifest r, "--features",
     "evm-tracing"] <|
  step [Event.setCurrentDir "../../"]
    (if w.setDirOk "../../" then Except.ok ()
     else Except.error "set_current_dir failed") <|
  step (create_dir_unchecked w (wasms_dir r)).1
    (create_dir_unchecked w (wasms_dir r)).2 <|
  step (create_dir_unchecked w (digests_dir r)).1
    (create_dir_unchecked w (digests_dir r)).2 <|
  step [Event.rename (build_output_path r) (wasm_path r target)]
    (if !(w.pathExists (build_output_path r)) then
       Except.error "rename failed: source does not exist"
     else if w.renameOk (build_output_path r) (wasm_path r target) then
       Except.ok ()
     else Except.error "rename failed") <|
  step [Event.createFile (digest_path r target)]
    (if w.createFileOk (digest_path r target) then Except.ok ()
     else Except.error "File::create failed") <|
  step [Event.writeJson (digest_path r target)]
    (if w.serializeOk then Except.ok () else Except.error "serde_json failed") <|
  ⟨[Event.println ("Generated WASM:   " ++ wasm_path r target),
    Event.println ("Generated digest: " ++ digest_path r target)],
   Except.ok ()⟩

/-- The body of `fn main`: clone the repository if the local clone directory
does not exist, then proceed with `afterClone`. -/
def mainRun (w : World) (cli : Cli) : RunResult :=
  if !(w.pathExists (runtime_source_code_path cli.runtime)) then
    runStep w "git"
      ["clone", cli.runtime.github, runtime_source_code_path cli.runtime]
      (afterClone w cli)
  else afterClone w cli

/-- The whole program: parse the command line, then run `main`'s body; a usage
error aborts before any side effect. -/
def cliMain (w : World) (runtimeArg : Option String)
    (targetArg : Option String) : RunResult :=
  match parseCli runtimeArg targetArg with
  | Except.error e => ⟨[], Except.error e⟩
  | Except.ok cli => mainRun w cli

/-- Recognizes the `git clone` invocation among trace events. -/
def isCloneEvent : Event → Bool
  | Event.runProc program (arg :: _) => program == "git" && arg == "clone"
  | _ => false

/-- One component of a relative path applied to a current directory, modelling
how the OS resolves `chdir`: `..` pops a component, empty and `.` components
are skipped, anything else descends. -/
def applyComponent (cwd : List String) (comp : String) : List String :=
  if comp = ".." then cwd.dropLast
  else if comp = "" ∨ comp = "." then cwd
  else cwd ++ [comp]

/-- Splitting a character list on a separator character; used to model how
the OS walks the components of a relative path. -/
def splitOnChar (sep : Char) : List Char → List (List Char)
  | [] => [[]]
  | c :: rest =>
    match splitOnChar sep rest with
    | [] => if c = sep then [[], []] else [[c]]
    | h :: t => if c = sep then [] :: h :: t else (c :: h) :: t

/-- Resolution of a relative `chdir` against a current directory given as a
component list. -/
def chdir (cwd : List String) (p : String) : List String :=
  ((splitOnChar '/' p.data).map String.mk).foldl applyComponent cwd

/-- The current working directory after a trace of events, starting from
`orig`: only `setCurrentDir` events move it. -/
def cwdAfter (orig : List String) (evs : List Event) : List String :=
  evs.foldl
    (fun c e =>
      match e with
      | Event.setCurrentDir p => chdir c p
      | _ => c)
    orig

/-- Characters before the last `/` of a string: the parent directory of a
relative path, as the filesystem sees it. -/
def parentDir (s : String) : String :=
  String.mk (((s.data.reverse.dropWhile (fun c => c ≠ '/')).drop 1).reverse)

/-- A world in which every external operation succeeds and every queried path
exists. -/
def allOkWorld : World where
  pathExists := fun _ => true
  spawn := fun _ _ => SpawnResult.spawned 0
  setDirOk := fun _ => true
  createDirOk := fun _ => true
  renameOk := fun _ _ => true
  createFileOk := fun _ => true
  serializeOk := true

/-- A world in which every external operation succeeds but no queried path
exists — in particular the toolchain's build output file is absent. -/
def noOutputWorld : World :=
  { allOkWorld with pathExists := fun _ => false }

/-- Events of `main` before it enters the source tree: the clone attempt,
present exactly when the clone directory is absent. -/
def preEvents (w : World) (cli : Cli) : List Event :=
  if w.pathExists (runtime_source_code_path cli.runtime) then []
  else [Event.runProc "git"
    ["clone", cli.runtime.github, runtime_source_code_path cli.runtime]]

/-- Events of `main` performed inside the source tree: fetch, checkout,
clean, build. -/
def midEvents (cli : Cli) : List Event :=
  [Event.runProc "git" ["fetch", "--all"],
   Event.runProc "git" ["checkout", cli.target],
   Event.runProc "cargo"
     ["clean", "--release", "--manifest-path", runtime_manifest cli.runtime,
      "-p", cli.runtime.lowercase_name ++ "-runtime"],
   Event.runProc "cargo"
     ["b", "--release", "--manifest-path", runtime_manifest cli.runtime,
      "--features", "evm-tracing"]]

/-- Events of `main` after the working directory is restored: output
directory creation, the artifact move, and digest emission. -/
def postEvents (w : World) (cli : Cli) : List Event :=
  (create_dir_unchecked w (wasms_dir cli.runtime)).1 ++
  (create_dir_unchecked w (digests_dir cli.runtime)).1 ++
  [Event.rename (build_output_path cli.runtime)
     (wasm_path cli.runtime cli.target),
   Event.createFile (digest_path cli.runtime cli.target),
   Event.writeJson (digest_path cli.runtime cli.target),
   Event.println ("Generated WASM:   " ++ wasm_path cli.runtime cli.target),
   Event.println ("Generated digest: " ++ digest_path cli.runtime cli.target)]

/- ### Trace lemmas -/

theorem mem_step {e : Event} {evs : List Event} {r : Except String Unit}
    {k : RunResult} (h : e ∈ (step evs r k).events) :
    e ∈ evs ∨ e ∈ k.events := by
  cases r with
  | error msg => simp [step] at h; exact Or.inl h
  | ok u => simpa [step] using h

theorem mem_create_dir_events {e : Event} {w : World} {p : String}
    (h : e ∈ (create_dir_unchecked w p).1) : e = Event.createDirAll p := by
  unfold create_dir_unchecked at h
  split at h <;> simp at h
  exact h

theorem mem_afterClone {w : World} {cli : Cli} {e : Event}
    (h : e ∈ (afterClone w cli).events) :
    e = Event.setCurrentDir (runtime_source_code_path cli.runtime) ∨
    e = Event.runProc "git" ["fetch", "--all"] ∨
    e = Event.runProc "git" ["checkout", cli.target] ∨
    e = Event.runProc "cargo"
      ["clean", "--release", "--manifest-path", runtime_manifest cli.runtime,
       "-p", cli.runtime.lowercase_name ++ "-runtime"] ∨
    e = Event.runProc "cargo"
      ["b", "--release", "--manifest-path", runtime_manifest cli.runtime,
       "--features", "evm-tracing"] ∨
    e = Event.setCurrentDir "../../" ∨
    e = Event.createDirAll (wasms_dir cli.runtime) ∨
    e = Event.createDirAll (digests_dir cli.runtime) ∨
    e = Event.rename (build_output_path cli.runtime)
      (wasm_path cli.runtime cli.target) ∨
    e = Event.createFile (digest_path cli.runtime cli.target) ∨
    e = Event.writeJson (digest_path cli.runtime cli.target) ∨
    e = Event.println ("Generated WASM:   " ++ wasm_path cli.runtime cli.target) ∨
    e = Event.println ("Generated digest: " ++ digest_path cli.runtime cli.target) := by
  simp only [afterClone, runStep] at h
  rcases mem_step h with h | h
  · simp at h; tauto
  rcases mem_step h with h | h
  · simp at h; tauto
  rcases mem_step h with h | h
  · simp at h; tauto
  rcases mem_step h with h | h
  · simp at h; tauto
  rcases mem_step h with h | h
  · simp at h; tauto
  rcases mem_step h with h | h
  · simp at h; tauto
  rcases mem_step h with h | h
  · have := mem_create_dir_events h; tauto
  rcases mem_step h with h | h
  · have := mem_create_dir_events h; tauto
  rcases mem_step h with h | h
  · simp at h; tauto
  rcases mem_step h with h | h
  · simp at h; tauto
  rcases mem_step h with h | h
  · simp at h; tauto
  simp at h; tauto

theorem mem_mainRun {w : World} {cli : Cli} {e : Event}
    (h : e ∈ (mainRun w cli).events) :
    e = Event.runProc "git"
      ["clone", cli.runtime.github, runtime_source_code_path cli.runtime] ∨
    e ∈ (afterClone w cli).events := by
  unfold mainRun at h
  split at h
  · simp only [runStep] at h
    rcases mem_step h with h | h
    · simp at h; tauto
    · tauto
  · tauto

theorem afterClone_no_clone {w : World} {cli : Cli} {e : Event}
    (h : e ∈ (afterClone w cli).events) : isCloneEvent e = false := by
  rcases mem_afterClone h with h | h | h | h | h | h | h | h | h | h | h | h | h <;>
    subst h <;> rfl

theorem step_ok_inv {evs : List Event} {r : Except String Unit}
    {k : RunResult} (h : (step evs r k).result = Except.ok ()) :
    k.result = Except.ok () ∧ (step evs r k).events = evs ++ k.events := by
  cases r with
  | error e => simp [step] at h
  | ok u => exact ⟨h, by simp [step]⟩

theorem afterClone_success {w : World} {cli : Cli}
    (h : (afterClone w cli).result = Except.ok ()) :
    (afterClone w cli).events =
      Event.setCurrentDir (runtime_source_code_path cli.runtime) ::
        (midEvents cli ++ Event.setCurrentDir "../../" :: postEvents w cli) := by
  simp only [afterClone, runStep] at h ⊢
  obtain ⟨h, he⟩ := step_ok_inv h
  rw [he]; clear he
  obtain ⟨h, he⟩ := step_ok_inv h
  rw [he]; clear he
  obtain ⟨h, he⟩ := step_ok_inv h
  rw [he]; clear he
  obtain ⟨h, he⟩ := step_ok_inv h
  rw [he]; clear he
  obtain ⟨h, he⟩ := step_ok_inv h
  rw [he]; clear he
  obtain ⟨h, he⟩ := step_ok_inv h
  rw [he]; clear he
  obtain ⟨h, he⟩ := step_ok_inv h
  rw [he]; clear he
  obtain ⟨h, he⟩ := step_ok_inv h
  rw [he]; clear he
  obtain ⟨h, he⟩ := step_ok_inv h
  rw [he]; clear he
  obtain ⟨h, he⟩ := step_ok_inv h
  rw [he]; clear he
  obtain ⟨h, he⟩ := step_ok_inv h
  rw [he]; clear he
  simp [midEvents, postEvents]

theorem mainRun_success_events {w : World} {cli : Cli}
    (h : (mainRun w cli).result = Except.ok ()) :
    (mainRun w cli).events =
      preEvents w cli ++
        Event.setCurrentDir (runtime_source_code_path cli.runtime) ::
          (midEvents cli ++ Event.setCurrentDir "../../" :: postEvents w cli) := by
  by_cases hb : w.pathExists (runtime_source_code_path cli.runtime)
  · rw [mainRun, hb] at h ⊢
    simp only [Bool.not_true, Bool.false_eq_true, if_false] at h ⊢
    rw [preEvents, if_pos hb, List.nil_append]
    exact afterClone_success h
  · rw [Bool.not_eq_true] at hb
    rw [mainRun, hb] at h ⊢
    simp only [Bool.not_false, if_true, runStep] at h ⊢
    obtain ⟨h, he⟩ := step_ok_inv h
    rw [he, preEvents, if_neg (by simp [hb]), afterClone_success h]

theorem cwdAfter_append (orig : List String) (a b : List Event) :
    cwdAfter orig (a ++ b) = cwdAfter (cwdAfter orig a) b := by
  simp [cwdAfter]

theorem cwdAfter_no_cd {evs : List Event} (orig : List String)
    (h : ∀ p, Event.setCurrentDir p ∉ evs) : cwdAfter orig evs = orig := by
  induction evs generalizing orig with
  | nil => rfl
  | cons e t ih =>
    have he : ∀ p, e ≠ Event.setCurrentDir p := by
      intro p hp
      exact h p (by simp [hp])
    have ht : ∀ p, Event.setCurrentDir p ∉ t := by
      intro p hp
      exact h p (by simp [hp])
    cases e with
    | setCurrentDir p => exact absurd rfl (he p)
    | runProc a b => exact ih orig ht
    | createDirAll a => exact ih orig ht
    | rename a b => exact ih orig ht
    | createFile a => exact ih orig ht
    | writeJson a => exact ih orig ht
    | println a => exact ih orig ht

theorem dropLast_append_singleton (l : List String) (a : String) :
    (l ++ [a]).dropLast = l := by
  simp

theorem chdir_source_back (orig : List String) (r : Runtime) :
    chdir (chdir orig (runtime_source_code_path r)) "../../" = orig := by
  have hup : ∀ (x : List String), chdir x "../../" = (x.dropLast).dropLast :=
    fun x => rfl
  cases r with
  | Darwinia =>
    have hb : chdir orig (runtime_source_code_path Runtime.Darwinia) =
        (orig ++ ["build"]) ++ ["darwinia"] := rfl
    rw [hb, hup, dropLast_append_singleton, dropLast_append_singleton]
  | Crab =>
    have hb : chdir orig (runtime_source_code_path Runtime.Crab) =
        (orig ++ ["build"]) ++ ["darwinia"] := rfl
    rw [hb, hup, dropLast_append_singleton, dropLast_append_singleton]
  | Pangoro =>
    have hb : chdir orig (runtime_source_code_path Runtime.Pangoro) =
        (orig ++ ["build"]) ++ ["darwinia-common"] := rfl
    rw [hb, hup, dropLast_append_singleton, dropLast_append_singleton]
  | Pangolin =>
    have hb : chdir orig (runtime_source_code_path Runtime.Pangolin) =
        (orig ++ ["build"]) ++ ["darwinia-common"] := rfl
    rw [hb, hup, dropLast_append_singleton, dropLast_append_singleton]

theorem no_cd_preEvents (w : World) (cli : Cli) (p : String) :
    Event.setCurrentDir p ∉ preEvents w cli := by
  rw [preEvents]
  split <;> simp

theorem no_cd_midEvents (cli : Cli) (p : String) :
    Event.setCurrentDir p ∉ midEvents cli := by
  simp [midEvents]

theorem no_cd_postEvents (w : World) (cli : Cli) (p : String) :
    Event.setCurrentDir p ∉ postEvents w cli := by
  rw [postEvents]
  intro hmem
  rcases List.mem_append.1 hmem with hmem | hmem
  · rcases List.mem_append.1 hmem with hmem | hmem <;>
      exact absurd (mem_create_dir_events hmem) (by simp)
  · simp at hmem

theorem cwdAfter_single (x : List String) (p : String) :
    cwdAfter x [Event.setCurrentDir p] = chdir x p := rfl

/- ### Claim theorems -/

/-- C1: for every subprocess invocation, the helper `run` returns success
whenever the subprocess could be spawned, regardless of its exit status; it
returns an error exactly when the process could not be launched at all. -/
theorem run_success_iff_spawned (w : World) (program : String)
    (args : List String) :
    (run w program args = Except.ok () ↔
      ∃ code, w.spawn program args = SpawnResult.spawned code) ∧
    (run w program args = Except.error "failed to spawn" ↔
      w.spawn program args = SpawnResult.failedToLaunch) := by
  constructor <;> cases h : w.spawn program args <;> simp [run, h]

/-- C2: for variant `Pangolin` and target `"v1.2.3"`, the artifact name, the
wasm destination path, and the digest destination path are exactly as
specified. -/
theorem pangolin_v123_paths :
    artifactName Runtime.Pangolin "v1.2.3" = "pangolin-v1.2.3-tracing-runtime" ∧
    wasm_path Runtime.Pangolin "v1.2.3" =
      "overridden-runtimes/pangolin/wasms/pangolin-v1.2.3-tracing-runtime.compact.compressed.wasm" ∧
    digest_path Runtime.Pangolin "v1.2.3" =
      "overridden-runtimes/pangolin/digests/pangolin-v1.2.3-tracing-runtime.json" := by
  refine ⟨?_, ?_, ?_⟩ <;> decide

/-- C7: for each of the four variants the registry lookup yields a non-empty
repository name, GitHub URL and sub-path, and the lowercase name is the
canonical name lowercased; the lookup functions are total with no error
path. -/
theorem registry_lookup_total_nonempty (r : Runtime) :
    r.repository ≠ "" ∧ r.github ≠ "" ∧ r.path ≠ "" ∧
    r.lowercase_name = asciiLower r.name := by
  cases r <;> refine ⟨?_, ?_, ?_, rfl⟩ <;> decide

/-- C9: the variant-to-repository mapping is not injective: Darwinia and Crab
share repository "darwinia", Pangoro and Pangolin share "darwinia-common", so
two distinct variants share a GitHub URL and a local clone directory. -/
theorem repository_map_not_injective :
    Runtime.Darwinia ≠ Runtime.Crab ∧
    Runtime.Darwinia.repository = "darwinia" ∧
    Runtime.Crab.repository = "darwinia" ∧
    Runtime.Pangoro ≠ Runtime.Pangolin ∧
    Runtime.Pangoro.repository = "darwinia-common" ∧
    Runtime.Pangolin.repository = "darwinia-common" ∧
    Runtime.Darwinia.github = Runtime.Crab.github ∧
    Runtime.Pangoro.github = Runtime.Pangolin.github ∧
    runtime_source_code_path Runtime.Darwinia =
      runtime_source_code_path Runtime.Crab ∧
    runtime_source_code_path Runtime.Pangoro =
      runtime_source_code_path Runtime.Pangolin ∧
    ¬ Function.Injective Runtime.repository := by
  refine ⟨by decide, rfl, rfl, by decide, rfl, rfl, rfl, rfl, rfl, rfl, ?_⟩
  intro h
  exact absurd (@h Runtime.Darwinia Runtime.Crab rfl) (by decide)

/-- C4: the clone subprocess is invoked if and only if the local clone
directory `build/<repository-name>` does not exist; when the directory exists,
no clone is performed (the directory is reused with no further check). -/
theorem clone_iff_dir_absent (w : World) (cli : Cli) :
    (∃ e ∈ (mainRun w cli).events, isCloneEvent e = true) ↔
    w.pathExists (runtime_source_code_path cli.runtime) = false := by
  constructor
  · rintro ⟨e, he, hclone⟩
    cases hp : w.pathExists (runtime_source_code_path cli.runtime) with
    | false => rfl
    | true =>
      rw [mainRun, hp] at he
      simp at he
      exact absurd hclone (by simp [afterClone_no_clone he])
  · intro hp
    refine ⟨Event.runProc "git"
      ["clone", cli.runtime.github, runtime_source_code_path cli.runtime],
      ?_, rfl⟩
    rw [mainRun, hp]
    simp only [runStep, step]
    cases hr : run w "git"
        ["clone", cli.runtime.github, runtime_source_code_path cli.runtime] <;>
      simp

/-- C6: an unrecognized variant string (after case-insensitive matching
against the four known names) makes the CLI fail with no filesystem or
subprocess side effect; a missing variant also fails with a usage error and
no side effect. -/
theorem unknown_variant_fails_without_side_effects (w : World) (s : String)
    (t : Option String) (h : parseRuntime s = none) :
    cliMain w (some s) t =
      ⟨[], Except.error "usage: invalid value for --runtime"⟩ ∧
    cliMain w none t =
      ⟨[], Except.error "usage: the required argument --runtime was not provided"⟩ := by
  constructor <;> simp [cliMain, parseCli, h]

theorem unknown_variant_witness :
    parseRuntime "kusama" = none ∧
    cliMain allOkWorld (some "kusama") none =
      ⟨[], Except.error "usage: invalid value for --runtime"⟩ :=
  ⟨by decide,
   (unknown_variant_fails_without_side_effects allOkWorld "kusama" none
      (by decide)).1⟩

/-- C8: when the `--target` flag is omitted, the parsed target is `"main"`,
and every checkout the program performs uses exactly the ref `"main"`. -/
theorem default_target_is_main (s : String) (r : Runtime)
    (h : parseRuntime s = some r) :
    parseCli (some s) none = Except.ok ⟨r, "main"⟩ ∧
    ∀ (w : World) (args : List String),
      Event.runProc "git" ("checkout" :: args) ∈
        (mainRun w ⟨r, "main"⟩).events → args = ["main"] := by
  refine ⟨by simp [parseCli, h], ?_⟩
  intro w args hmem
  rcases mem_mainRun hmem with hc | hc
  · exact absurd hc (by simp)
  · rcases mem_afterClone hc with
      h' | h' | h' | h' | h' | h' | h' | h' | h' | h' | h' | h' | h' <;>
      simp_all

theorem default_target_witness :
    parseRuntime "PANGOLIN" = some Runtime.Pangolin ∧
    (parseCli (some "PANGOLIN") none =
        Except.ok ⟨Runtime.Pangolin, "main"⟩ ∧
      ∀ (w : World) (args : List String),
        Event.runProc "git" ("checkout" :: args) ∈
          (mainRun w ⟨Runtime.Pangolin, "main"⟩).events → args = ["main"]) :=
  ⟨by decide, default_target_is_main "PANGOLIN" Runtime.Pangolin (by decide)⟩

theorem run_ok {w : World} {p : String} {a : List String}
    (hspawn : w.spawn p a ≠ SpawnResult.failedToLaunch) :
    run w p a = Except.ok () := by
  cases h : w.spawn p a with
  | spawned c => simp [run, h]
  | failedToLaunch => exact absurd h hspawn

/-- C3: when the expected toolchain output file is absent after the build
step (and every earlier step could proceed), the run fails at the rename
step: the rename is attempted, its error is the run's result, and no digest
file is created or written. -/
theorem missing_output_fails_before_digest (w : World) (cli : Cli)
    (hspawn : ∀ p a, w.spawn p a ≠ SpawnResult.failedToLaunch)
    (hset : ∀ p, w.setDirOk p = true)
    (hmk : ∀ p, w.createDirOk p = true)
    (hout : w.pathExists (build_output_path cli.runtime) = false) :
    (mainRun w cli).result =
      Except.error "rename failed: source does not exist" ∧
    Event.rename (build_output_path cli.runtime)
      (wasm_path cli.runtime cli.target) ∈ (mainRun w cli).events ∧
    Event.createFile (digest_path cli.runtime cli.target) ∉
      (mainRun w cli).events ∧
    Event.writeJson (digest_path cli.runtime cli.target) ∉
      (mainRun w cli).events := by
  have hg : ∀ p a, run w p a = Except.ok () := fun p a => run_ok (hspawn p a)
  cases hb1 : w.pathExists (runtime_source_code_path cli.runtime) <;>
  cases hb2 : w.pathExists (wasms_dir cli.runtime) <;>
  cases hb3 : w.pathExists (digests_dir cli.runtime) <;>
    simp [mainRun, afterClone, runStep, create_dir_unchecked, step, hg, hset,
      hmk, hout, hb1, hb2, hb3]

theorem missing_output_witness :
    noOutputWorld.pathExists (build_output_path Runtime.Darwinia) = false ∧
    ((mainRun noOutputWorld ⟨Runtime.Darwinia, "main"⟩).result =
        Except.error "rename failed: source does not exist" ∧
      Event.rename (build_output_path Runtime.Darwinia)
        (wasm_path Runtime.Darwinia "main") ∈
        (mainRun noOutputWorld ⟨Runtime.Darwinia, "main"⟩).events ∧
      Event.createFile (digest_path Runtime.Darwinia "main") ∉
        (mainRun noOutputWorld ⟨Runtime.Darwinia, "main"⟩).events ∧
      Event.writeJson (digest_path Runtime.Darwinia "main") ∉
        (mainRun noOutputWorld ⟨Runtime.Darwinia, "main"⟩).events) :=
  ⟨rfl,
   missing_output_fails_before_digest noOutputWorld ⟨Runtime.Darwinia, "main"⟩
     (fun _ _ h => nomatch h) (fun _ => rfl) (fun _ => rfl) rfl⟩

/-- C5: on a successful run, the working directory is moved into the acquired
source tree's root before the clean and build steps and is restored to the
original working directory afterwards, before the artifact relocation. -/
theorem cwd_restored_before_relocation (w : World) (cli : Cli)
    (orig : List String) (h : (mainRun w cli).result = Except.ok ()) :
    ∃ pre mid post,
      (mainRun w cli).events =
        pre ++ Event.setCurrentDir (runtime_source_code_path cli.runtime) ::
          (mid ++ Event.setCurrentDir "../../" :: post) ∧
      (∀ p, Event.setCurrentDir p ∉ pre) ∧
      (∀ p, Event.setCurrentDir p ∉ mid) ∧
      (∀ p, Event.setCurrentDir p ∉ post) ∧
      Event.runProc "cargo"
        ["clean", "--release", "--manifest-path", runtime_manifest cli.runtime,
         "-p", cli.runtime.lowercase_name ++ "-runtime"] ∈ mid ∧
      Event.runProc "cargo"
        ["b", "--release", "--manifest-path", runtime_manifest cli.runtime,
         "--features", "evm-tracing"] ∈ mid ∧
      Event.rename (build_output_path cli.runtime)
        (wasm_path cli.runtime cli.target) ∈ post ∧
      cwdAfter orig
          (pre ++ [Event.setCurrentDir (runtime_source_code_path cli.runtime)]) =
        chdir orig (runtime_source_code_path cli.runtime) ∧
      cwdAfter orig
          (pre ++ Event.setCurrentDir (runtime_source_code_path cli.runtime) ::
            (mid ++ [Event.setCurrentDir "../../"])) = orig := by
  refine ⟨preEvents w cli, midEvents cli, postEvents w cli,
    mainRun_success_events h, no_cd_preEvents w cli, no_cd_midEvents cli,
    no_cd_postEvents w cli, by simp [midEvents], by simp [midEvents],
    by simp [postEvents], ?_, ?_⟩
  · rw [cwdAfter_append, cwdAfter_no_cd orig (no_cd_preEvents w cli),
      cwdAfter_single]
  · have hshape :
        preEvents w cli ++
            Event.setCurrentDir (runtime_source_code_path cli.runtime) ::
              (midEvents cli ++ [Event.setCurrentDir "../../"]) =
          ((preEvents w cli ++
              [Event.setCurrentDir (runtime_source_code_path cli.runtime)]) ++
            midEvents cli) ++ [Event.setCurrentDir "../../"] := by
      simp
    rw [hshape, cwdAfter_append, cwdAfter_append, cwdAfter_append,
      cwdAfter_no_cd orig (no_cd_preEvents w cli), cwdAfter_single,
      cwdAfter_no_cd _ (fun p => no_cd_midEvents cli p), cwdAfter_single]
    exact chdir_source_back orig cli.runtime

theorem cwd_restored_witness :
    (mainRun allOkWorld ⟨Runtime.Crab, "v1"⟩).result = Except.ok () ∧
    (∃ pre mid post,
      (mainRun allOkWorld ⟨Runtime.Crab, "v1"⟩).events =
        pre ++ Event.setCurrentDir (runtime_source_code_path Runtime.Crab) ::
          (mid ++ Event.setCurrentDir "../../" :: post) ∧
      (∀ p, Event.setCurrentDir p ∉ pre) ∧
      (∀ p, Event.setCurrentDir p ∉ mid) ∧
      (∀ p, Event.setCurrentDir p ∉ post) ∧
      Event.runProc "cargo"
        ["clean", "--release", "--manifest-path", runtime_manifest Runtime.Crab,
         "-p", Runtime.Crab.lowercase_name ++ "-runtime"] ∈ mid ∧
      Event.runProc "cargo"
        ["b", "--release", "--manifest-path", runtime_manifest Runtime.Crab,
         "--features", "evm-tracing"] ∈ mid ∧
      Event.rename (build_output_path Runtime.Crab)
        (wasm_path Runtime.Crab "v1") ∈ post ∧
      cwdAfter ["root", "workspace"]
          (pre ++ [Event.setCurrentDir (runtime_source_code_path Runtime.Crab)]) =
        chdir ["root", "workspace"] (runtime_source_code_path Runtime.Crab) ∧
      cwdAfter ["root", "workspace"]
          (pre ++ Event.setCurrentDir (runtime_source_code_path Runtime.Crab) ::
            (mid ++ [Event.setCurrentDir "../../"])) = ["root", "workspace"]) :=
  ⟨rfl,
   cwd_restored_before_relocation allOkWorld ⟨Runtime.Crab, "v1"⟩
     ["root", "workspace"] rfl⟩

theorem count_drop_dropWhile : ∀ (l : List Char), '/' ∈ l →
    ((l.dropWhile (fun c => c ≠ '/')).drop 1).count '/' + 1 = l.count '/' := by
  intro l h
  induction l with
  | nil => cases h
  | cons c t ih =>
    by_cases hc : c = '/'
    · subst hc
      simp [List.dropWhile]
    · have ht : '/' ∈ t := by
        rcases List.mem_cons.1 h with h1 | h1
        · exact absurd h1.symm hc
        · exact h1
      have hr := ih ht
      have hcount : List.count '/' (c :: t) = List.count '/' t := by
        simp [List.count_cons, Ne.symm hc]
      rw [hcount]
      simpa [List.dropWhile, hc] using hr

theorem parentDir_count {s : String} (h : '/' ∈ s.data) :
    (parentDir s).data.count '/' + 1 = s.data.count '/' := by
  have h' : '/' ∈ s.data.reverse := List.mem_reverse.2 h
  have hr := count_drop_dropWhile s.data.reverse h'
  simpa [parentDir, List.count_reverse] using hr

theorem count_data_append (a b : String) :
    ((a ++ b).data).count '/' = a.data.count '/' + b.data.count '/' := by
  rw [String.data_append, List.count_append]

theorem count_lowercase (r : Runtime) :
    (r.lowercase_name).data.count '/' = 0 := by
  cases r <;> decide

theorem count_wasms_dir (r : Runtime) : (wasms_dir r).data.count '/' = 2 := by
  cases r <;> decide

theorem count_digests_dir (r : Runtime) :
    (digests_dir r).data.count '/' = 2 := by
  cases r <;> decide

theorem count_artifactName (r : Runtime) (t : String) :
    (artifactName r t).data.count '/' = t.data.count '/' := by
  simp [artifactName, count_data_append, count_lowercase,
    (by decide : ("-" : String).data.count '/' = 0),
    (by decide : ("-tracing-runtime" : String).data.count '/' = 0)]

theorem count_wasm_path (r : Runtime) (t : String) :
    (wasm_path r t).data.count '/' = t.data.count '/' + 3 := by
  simp [wasm_path, count_data_append, count_wasms_dir, count_artifactName,
    (by decide : ("/" : String).data.count '/' = 1),
    (by decide : (".compact.compressed.wasm" : String).data.count '/' = 0)]
  omega

theorem count_digest_path (r : Runtime) (t : String) :
    (digest_path r t).data.count '/' = t.data.count '/' + 3 := by
  simp [digest_path, count_data_append, count_digests_dir, count_artifactName,
    (by decide : ("/" : String).data.count '/' = 1),
    (by decide : (".json" : String).data.count '/' = 0)]
  omega

theorem created_dirs {w : World} {cli : Cli} {p : String}
    (hp : Event.createDirAll p ∈ (mainRun w cli).events) :
    p = wasms_dir cli.runtime ∨ p = digests_dir cli.runtime := by
  rcases mem_mainRun hp with hc | hc
  · exact absurd hc (by simp)
  · rcases mem_afterClone hc with
      h' | h' | h' | h' | h' | h' | h' | h' | h' | h' | h' | h' | h' <;>
      simp at h' <;> tauto

/-- C10: the artifact name embeds the target verbatim and unsanitized as
`<lowercase-variant>-<target>-tracing-runtime`; for any target containing a
path separator, the parent directories of the computed wasm and digest
destinations differ from every directory the directory-creation step ever
creates. -/
theorem target_slash_unsanitized (w : World) (cli : Cli)
    (h : 0 < cli.target.data.count '/') :
    artifactName cli.runtime cli.target =
      cli.runtime.lowercase_name ++ "-" ++ cli.target ++ "-tracing-runtime" ∧
    ∀ p, Event.createDirAll p ∈ (mainRun w cli).events →
      parentDir (wasm_path cli.runtime cli.target) ≠ p ∧
      parentDir (digest_path cli.runtime cli.target) ≠ p := by
  refine ⟨rfl, ?_⟩
  intro p hp
  have hwmem : '/' ∈ (wasm_path cli.runtime cli.target).data := by
    have := count_wasm_path cli.runtime cli.target
    have : 0 < (wasm_path cli.runtime cli.target).data.count '/' := by omega
    exact List.count_pos_iff.1 this
  have hdmem : '/' ∈ (digest_path cli.runtime cli.target).data := by
    have := count_digest_path cli.runtime cli.target
    have : 0 < (digest_path cli.runtime cli.target).data.count '/' := by omega
    exact List.count_pos_iff.1 this
  have hw := parentDir_count hwmem
  have hd := parentDir_count hdmem
  have hwc := count_wasm_path cli.runtime cli.target
  have hdc := count_digest_path cli.runtime cli.target
  have hpw : (parentDir (wasm_path cli.runtime cli.target)).data.count '/' =
      cli.target.data.count '/' + 2 := by omega
  have hpd : (parentDir (digest_path cli.runtime cli.target)).data.count '/' =
      cli.target.data.count '/' + 2 := by omega
  have hcount : p.data.count '/' = 2 := by
    rcases created_dirs hp with rfl | rfl
    · exact count_wasms_dir cli.runtime
    · exact count_digests_dir cli.runtime
  constructor <;> intro heq <;>
    have hcc := congrArg (fun s => s.data.count '/') heq <;>
    simp only [] at hcc <;> omega

theorem target_slash_witness :
    0 < ("feat/x" : String).data.count '/' ∧
    (artifactName Runtime.Pangoro "feat/x" =
        Runtime.Pangoro.lowercase_name ++ "-" ++ "feat/x" ++ "-tracing-runtime" ∧
      ∀ p,
        Event.createDirAll p ∈
          (mainRun allOkWorld ⟨Runtime.Pangoro, "feat/x"⟩).events →
        parentDir (wasm_path Runtime.Pangoro "feat/x") ≠ p ∧
        parentDir (digest_path Runtime.Pangoro "feat/x") ≠ p) :=
  ⟨by decide,
   target_slash_unsanitized allOkWorld ⟨Runtime.Pangoro, "feat/x"⟩ (by decide)⟩

end RuntimeOverrides
